import Mathlib

/-!
Shallow embedding of the megamega2612 controller core (src/megamega1/main.c)
and proofs about its voice allocator, tick scheduler, parameter store and
MIDI dispatch.  Machine integers of the C source (`int`, `uint8_t`) are
modelled as `Int`; a conversion of an `int` expression to `uint8_t`
(as performed by `sendreg`'s parameters) is modelled as `% 256`
(`Int.emod`, which agrees with C's conversion to `unsigned char` for all
arguments).  C's `/` on `int` truncates toward zero, which is `Int.tdiv`.
Register-sink transmissions are modelled as a list of `Write` events in
emission order.
-/

namespace Megamega

/-- One (channel-group flag, register address, data byte) transmission of
`sendreg` in the C source, after its three `uint8_t` parameter conversions. -/
structure Write where
  flag : Int
  reg : Int
  data : Int
deriving DecidableEq, Repr

/-- The call `sendreg(flag, reg, data)`: the register-sink event; each `int` argument
is converted to `uint8_t`, i.e. reduced mod 256. -/
def sendreg (flag reg data : Int) : Write :=
  ⟨flag % 256, reg % 256, data % 256⟩

/-- Table `const uint8_t chan[] = {0, 1, 2, 4, 5, 6};`. -/
def chanTbl : List Int := [0, 1, 2, 4, 5, 6]

/-- Lookup `chan[i]` (reads past the array never happen in the source: i < 6). -/
def chanAt (i : Nat) : Int := chanTbl.getD i 0

/-- Table `const uint8_t opOffset[] = {0, 0x08, 0x04, 0x0C};`. -/
def opOffsetTbl : List Int := [0, 0x08, 0x04, 0x0C]

/-- Lookup `opOffset[o]` (o < 4 at every use in the source). -/
def opOffsetAt (o : Nat) : Int := opOffsetTbl.getD o 0

/-- The flag `uint8_t chanGrp = (i > 2);` — channel-group flag for slot i. -/
def chanGrp (i : Nat) : Int := if i > 2 then 1 else 0

/-- The function `void minMaxValue(int* var, int min, int max)`: value below min becomes
max, above max becomes min (wrap-around, not clamping); returned
functionally instead of through the pointer. -/
def minMaxValue (var min max : Int) : Int :=
  if var < min then max else if var > max then min else var

/-- The function `int max(int val1, int val2)` from the source. -/
def max (val1 val2 : Int) : Int :=
  if val1 > val2 then val1 else val2

/-- One of the 6 channel slots: `notesOn[i][0..2]`, `vel[i]`,
`freq[i][0..1]` of `struct Parameters`.  The two `notesOn` flags are only
ever assigned 0 or 1 and tested for truth, so they are `Bool` here. -/
structure Slot where
  note : Int
  reqOn : Bool
  sounding : Bool
  vel : Int
  freqHi : Int
  freqLo : Int
deriving DecidableEq, Repr

/-- A slot whose fields are all zero, as the C globals start out. -/
def idleSlot : Slot := ⟨0, false, false, 0, 0, 0⟩

/-- The part of `struct Parameters` the verified claims touch.  Per-operator
`int[4]` arrays are `List Int` of length 4. -/
structure Ym where
  slots : List Slot
  sustain : Bool
  patchNum : Int
  velSens : Int
  minVel : Int
  polyphony : Int
  algorithm : Int
  feedback : Int
  detune : List Int
  multiple : List Int
  totalLvl : List Int
  attack : List Int
  decay : List Int
  susLvl : List Int
  susRate : List Int
  release : List Int
  rateScl : List Int
  ssgeg : List Int
  lfoFreq : Int
  vibrato : Int
  tremolo : Int
  amOn : List Int
deriving DecidableEq, Repr

/-- The state after `main`'s initialisation assignments (before `preset()`
runs): all slots idle, patch 15, velSens 2, minVel 50, everything else 0. -/
def ym0 : Ym where
  slots := List.replicate 6 idleSlot
  sustain := false
  patchNum := 15
  velSens := 2
  minVel := 50
  polyphony := 0
  algorithm := 0
  feedback := 0
  detune := [0, 0, 0, 0]
  multiple := [0, 0, 0, 0]
  totalLvl := [0, 0, 0, 0]
  attack := [0, 0, 0, 0]
  decay := [0, 0, 0, 0]
  susLvl := [0, 0, 0, 0]
  susRate := [0, 0, 0, 0]
  release := [0, 0, 0, 0]
  rateScl := [0, 0, 0, 0]
  ssgeg := [0, 0, 0, 0]
  lfoFreq := 0
  vibrato := 0
  tremolo := 0
  amOn := [0, 0, 0, 0]

/-- Table `uint16_t notes[] = {311, ..., 586};` — the 12-entry frequency table of
`note()`. -/
def notes : List Int := [311, 329, 349, 370, 392, 415, 440, 466, 493, 523, 554, 586]

/-- The computation `oct = noteIn / 12 - 1; minMaxValue(&oct, 0, 7);` — the octave block
computed by `note()` (noteIn is a `uint8_t`, so its division is on
nonnegative values). -/
def octBlock (noteIn : Nat) : Int :=
  minMaxValue (((noteIn / 12 : Nat) : Int) - 1) 0 7

/-- The lookup `noteOut = notes[noteIn % 12];`. -/
def noteCode (noteIn : Nat) : Int := notes.getD (noteIn % 12) 0

/-- The store `ym.freq[i][0] = (oct<<3) | ((noteOut & 0x0700)>>8);` — since the wrapped
octave block lies in [0,7] its shifted bits (3–5) are disjoint from the
low three bits of the other operand, so the bitwise-or is addition; `noteOut`
is nonnegative, so `(noteOut & 0x0700) >> 8 = (noteOut / 256) % 8`. -/
def freqHiOf (noteIn : Nat) : Int :=
  octBlock noteIn * 8 + (noteCode noteIn / 256) % 8

/-- The store `ym.freq[i][1] = (noteOut & 0x00FF);` — for nonnegative `noteOut` this is
`noteOut % 256`. -/
def freqLoOf (noteIn : Nat) : Int := noteCode noteIn % 256

/-- The four `sendreg` calls of `note()`'s retrigger branch for slot i:
key-off, pitch-high, pitch-low, key-on, using the slot's stored frequency
bytes. -/
def retrigWrites (i : Nat) (s : Slot) : List Write :=
  [sendreg 0 0x28 (0x00 + chanAt i),
   sendreg (chanGrp i) (0xA4 + ((i % 3 : Nat) : Int)) s.freqHi,
   sendreg (chanGrp i) (0xA0 + ((i % 3 : Nat) : Int)) s.freqLo,
   sendreg 0 0x28 (0xF0 + chanAt i)]

/-- The note-on scan of `note()` (`for(int i = 0; i < 6; i++)` with `break`):
the first slot with both flags clear is allocated; otherwise the first slot
already fully on with the same note is retriggered in place; the index
argument tracks `i`. -/
def noteOnLoop (minVel : Int) (noteIn velocity : Nat) (fHi fLo : Int) :
    Nat → List Slot → List Slot × List Write
  | _, [] => ([], [])
  | i, s :: rest =>
    if s.reqOn = false ∧ s.sounding = false then
      ({ s with vel := max velocity minVel, freqHi := fHi, freqLo := fLo,
                note := noteIn, reqOn := true } :: rest, [])
    else if s.reqOn = true ∧ s.sounding = true ∧ s.note = (noteIn : Int) then
      (s :: rest, retrigWrites i s)
    else
      let r := noteOnLoop minVel noteIn velocity fHi fLo (i + 1) rest
      (s :: r.1, r.2)

/-- The note-off scan of `note()`: the first slot fully on with a matching
note gets its requested-on flag cleared. -/
def noteOffLoop (noteIn : Nat) : List Slot → List Slot
  | [] => []
  | s :: rest =>
    if s.reqOn = true ∧ s.sounding = true ∧ s.note = (noteIn : Int) then
      { s with reqOn := false } :: rest
    else
      s :: noteOffLoop noteIn rest

/-- The function `void note(uint8_t noteIn, uint8_t velocity, bool on)`: translate the
incoming note to an octave block and frequency code, then run the note-on
or note-off slot scan. -/
def note (st : Ym) (noteIn velocity : Nat) (onFlag : Bool) : Ym × List Write :=
  let fHi := freqHiOf noteIn
  let fLo := freqLoOf noteIn
  if onFlag then
    let r := noteOnLoop st.minVel noteIn velocity fHi fLo 0 st.slots
    ({ st with slots := r.1 }, r.2)
  else
    ({ st with slots := noteOffLoop noteIn st.slots }, [])

/-- The blend `opLvl = ((ym.velSens)*ym.vel[i] + (10-ym.velSens)*ym.totalLvl[o]) / 10;`
— C `int` division truncates toward zero (`Int.tdiv`). -/
def opLvl (g : Ym) (s : Slot) (o : Nat) : Int :=
  (g.velSens * s.vel + (10 - g.velSens) * g.totalLvl.getD o 0).tdiv 10

/-- The register burst of the tick handler's note-on branch for slot i:
one velocity-blended level write per operator (reversed polarity), then
pitch-high, pitch-low, key-on. -/
def onBurst (g : Ym) (i : Nat) (s : Slot) : List Write :=
  ((List.range 4).map fun o =>
    sendreg (chanGrp i) (0x40 + ((i % 3 : Nat) : Int) + opOffsetAt o) (127 - opLvl g s o))
  ++ [sendreg (chanGrp i) (0xA4 + ((i % 3 : Nat) : Int)) s.freqHi,
      sendreg (chanGrp i) (0xA0 + ((i % 3 : Nat) : Int)) s.freqLo,
      sendreg 0 0x28 (0xF0 + chanAt i)]

/-- The body of `TIMER1_OVF_vect`'s per-slot reconciliation: a slot
scheduled on but not sounding gets the on burst and its sounding flag set;
a slot sounding but no longer scheduled is keyed off and cleared unless the
sustain flag holds it. -/
def tickSlot (g : Ym) (i : Nat) (s : Slot) : Slot × List Write :=
  match s.reqOn, s.sounding with
  | true, false => ({ s with sounding := true }, onBurst g i s)
  | false, true =>
    if g.sustain then (s, [])
    else ({ s with note := 0, reqOn := false, sounding := false },
          [sendreg 0 0x28 (0x00 + chanAt i)])
  | _, _ => (s, [])

/-- The loop `for(int i = 0; i < 6; i++)` of `TIMER1_OVF_vect` over the remaining
slots, the index argument tracking `i`; writes are concatenated in loop
order. -/
def tickLoop (g : Ym) : Nat → List Slot → List Slot × List Write
  | _, [] => ([], [])
  | i, s :: rest =>
    let r1 := tickSlot g i s
    let r2 := tickLoop g (i + 1) rest
    (r1.1 :: r2.1, r1.2 ++ r2.2)

/-- The handler `ISR(TIMER1_OVF_vect)`: one scheduling tick over all slots. -/
def TIMER1_OVF_vect (st : Ym) : Ym × List Write :=
  let r := tickLoop st 0 st.slots
  ({ st with slots := r.1 }, r.2)

/-- Iterate `m` consecutive ticks (states only). -/
def tickIter : Nat → Ym → Ym
  | 0, st => st
  | m + 1, st => (TIMER1_OVF_vect (tickIter m st)).1

/-- The controller branch (`case 0xB0`) of `USART_RX_vect`: controller 1
(mod wheel) issues a direct LFO register write, controller 64 toggles the
sustain flag (data 0 sets it, nonzero clears it). -/
def usartControl (st : Ym) (data1 data2 : Int) : Ym × List Write :=
  if data1 = 1 then
    if data2 = 0 then
      if st.lfoFreq = 0 then (st, [sendreg 0 0x22 0])
      else (st, [sendreg 0 0x22 (0x08 + st.lfoFreq - 1)])
    else (st, [sendreg 0 0x22 (0x08 + data2.tdiv 18)])
  else if data1 = 64 then
    if data2 = 0 then ({ st with sustain := true }, [])
    else ({ st with sustain := false }, [])
  else (st, [])

/-- The function `void writeToYM(...)`: the register-encoder translation stage.  Bit
shifts are by constant amounts on values that are nonnegative at every call
site, so `v << n` is `v * 2^n`.  The multi-channel path emits two
group-flag passes of three channels each; the global path emits a single
write. -/
def writeToYM (op : Nat) (val1 val2 : Int) (baseReg : Int)
    (bitShift1 bitShift2 : Nat) (multiOp multiChannel : Bool)
    (options : Nat) (subValue1 subValue2 : Int) : List Write :=
  let regToWrite := if multiOp then baseReg + opOffsetAt op else baseReg
  if multiChannel then
    (List.range 2).flatMap fun j =>
      (List.range 3).map fun i =>
        let dataToWrite :=
          match options with
          | 0 => val1 * 2 ^ bitShift1 + val2 * 2 ^ bitShift2
          | 1 => (subValue1 - val1) * 2 ^ bitShift1 + val2 * 2 ^ bitShift2
          | 2 => val1 * 2 ^ bitShift1 + (subValue2 - val2) * 2 ^ bitShift2
          | 3 => (subValue1 - val1) * 2 ^ bitShift1 + (subValue2 - val2) * 2 ^ bitShift2
          | 4 => val1
          | 5 => (val1 + 3) * 2 ^ bitShift1 + val2 * 2 ^ bitShift2
          | 6 => val1 * 2 ^ bitShift1 + (val2 + 3) * 2 ^ bitShift2
          | 7 => subValue1 - val1
          | 8 => 0xC0 + val1 * 2 ^ bitShift1 + val2 * 2 ^ bitShift2
          | 9 => subValue1 - val1
          | _ => val1
        sendreg j (regToWrite + i) dataToWrite
  else
    [sendreg 0 baseReg (val1 + val2 * 2 ^ bitShift2)]

/-- The function `void changeAllParams(...)`: overwrite every preset-controlled parameter
in the store and emit the corresponding register-encoder bursts in the
source's order (algorithm/feedback, LFO, vibrato/tremolo, then per operator:
multiple/detune, total level, attack/rate-scale, decay/AM,
sustain-level/release, sustain-rate, SSGEG). -/
def changeAllParams (alg fb lfo vib trem
    mult0 mult1 mult2 mult3 det0 det1 det2 det3
    tl0 tl1 tl2 tl3 atk0 atk1 atk2 atk3
    dcy0 dcy1 dcy2 dcy3 sl0 sl1 sl2 sl3
    sr0 sr1 sr2 sr3 rel0 rel1 rel2 rel3
    rs0 rs1 rs2 rs3 eg0 eg1 eg2 eg3
    am0 am1 am2 am3 : Int) (st : Ym) : Ym × List Write :=
  let mult : List Int := [mult0, mult1, mult2, mult3]
  let det : List Int := [det0, det1, det2, det3]
  let tl : List Int := [tl0, tl1, tl2, tl3]
  let atk : List Int := [atk0, atk1, atk2, atk3]
  let dcy : List Int := [dcy0, dcy1, dcy2, dcy3]
  let sl : List Int := [sl0, sl1, sl2, sl3]
  let sr : List Int := [sr0, sr1, sr2, sr3]
  let rel : List Int := [rel0, rel1, rel2, rel3]
  let rs : List Int := [rs0, rs1, rs2, rs3]
  let eg : List Int := [eg0, eg1, eg2, eg3]
  let am : List Int := [am0, am1, am2, am3]
  let st' := { st with
    algorithm := alg, feedback := fb, lfoFreq := lfo, vibrato := vib,
    tremolo := trem, multiple := mult, detune := det, totalLvl := tl,
    attack := atk, decay := dcy, susLvl := sl, susRate := sr,
    release := rel, rateScl := rs, ssgeg := eg, amOn := am }
  let ws :=
    writeToYM 0 alg fb 0xB0 0 3 false true 0 0 0
    ++ (if lfo = 0 then writeToYM 0 0 0 0x22 0 3 false false 0 0 0
        else writeToYM 0 (lfo - 1) 1 0x22 0 3 false false 0 0 0)
    ++ writeToYM 0 vib trem 0xB4 0 4 false true 8 0 0
    ++ (List.range 4).flatMap fun i =>
      writeToYM i (mult.getD i 0) (det.getD i 0) 0x30 0 4 true true 6 0 0
      ++ writeToYM i (tl.getD i 0) 0 0x40 0 0 true true 9 127 0
      ++ writeToYM i (atk.getD i 0) (rs.getD i 0) 0x50 0 6 true true 1 31 0
      ++ writeToYM i (dcy.getD i 0) (am.getD i 0) 0x60 0 7 true true 1 31 0
      ++ writeToYM i (sl.getD i 0) (rel.getD i 0) 0x80 4 0 true true 3 15 15
      ++ writeToYM i (sr.getD i 0) 0 0x70 0 0 true true 7 31 0
      ++ (if eg.getD i 0 = 0 then writeToYM i 0 0 0x90 0 3 true true 4 0 0
          else writeToYM i (eg.getD i 0 - 1) 1 0x90 0 3 true true 0 0 0)
  (st', ws)

/-- The function `void preset()`: the 21-entry preset library switch on `ym.patchNum`;
argument lists transcribed from the source. -/
def preset (st : Ym) : Ym × List Write :=
  if st.patchNum = 0 then
    changeAllParams 7 0 0 0 0 10 8 4 2 (-3) 1 3 0 63 117 117 127 0 0 0 0 23 23 23 23 0 0 0 0 29 29 29 29 1 1 1 1 1 2 1 2 0 0 0 0 0 0 0 0 st
  else if st.patchNum = 1 then
    changeAllParams 3 4 2 4 0 1 10 2 6 0 0 0 0 127 127 127 127 0 2 12 7 4 0 23 31 14 5 0 13 29 16 0 29 7 5 8 7 1 1 1 1 0 0 0 0 0 0 0 0 st
  else if st.patchNum = 2 then
    changeAllParams 4 0 0 0 0 10 8 4 2 (-3) 1 3 0 27 112 112 127 0 0 9 0 16 16 16 21 0 0 0 0 29 29 29 29 7 7 7 10 1 2 1 2 0 0 0 0 0 0 0 0 st
  else if st.patchNum = 3 then
    changeAllParams 5 3 3 0 3 10 8 6 2 (-3) 1 3 0 100 117 117 127 10 26 25 0 15 23 16 21 13 7 12 0 29 29 29 29 9 1 19 11 1 2 1 2 0 0 0 0 0 0 1 0 st
  else if st.patchNum = 4 then
    changeAllParams 0 6 1 6 2 10 8 1 2 (-3) 1 3 0 88 112 112 127 14 17 14 8 18 19 19 22 0 0 0 15 29 29 29 29 6 6 6 8 2 1 2 1 3 1 3 0 1 1 1 0 st
  else if st.patchNum = 5 then
    changeAllParams 2 5 0 0 0 1 2 7 2 3 (-3) 3 0 126 97 106 127 16 19 27 10 27 22 26 21 13 10 12 12 31 31 31 27 8 8 8 8 1 1 1 1 0 0 0 0 0 0 0 0 st
  else if st.patchNum = 6 then
    changeAllParams 7 4 0 0 0 4 2 1 2 (-2) 2 1 (-1) 124 117 120 127 0 0 0 0 16 23 31 12 0 0 0 0 29 29 0 18 1 1 1 1 1 1 1 1 0 0 0 0 0 0 0 0 st
  else if st.patchNum = 7 then
    changeAllParams 3 0 0 0 0 4 6 3 4 (-3) 2 3 (-1) 111 79 118 127 11 14 2 1 15 20 10 17 0 0 0 0 29 29 29 29 9 1 10 9 2 2 1 2 0 0 0 0 0 0 0 0 st
  else if st.patchNum = 8 then
    changeAllParams 3 4 0 0 0 4 6 7 4 (-1) 2 3 (-1) 111 117 118 127 10 22 27 1 15 20 17 21 0 0 0 0 29 29 31 29 9 1 10 9 2 2 1 2 0 0 0 0 0 0 0 0 st
  else if st.patchNum = 9 then
    changeAllParams 3 5 0 0 0 2 3 2 1 (-2) (-2) 1 0 116 118 119 127 25 23 0 0 25 27 19 24 9 10 11 13 31 31 31 31 4 4 4 4 1 1 1 1 0 0 0 0 0 0 0 0 st
  else if st.patchNum = 10 then
    changeAllParams 5 5 2 5 2 2 2 2 2 (-1) 1 3 0 108 117 124 127 8 6 12 7 25 16 27 26 4 0 0 0 29 29 29 29 4 1 3 2 1 2 1 2 0 0 0 0 0 0 1 0 st
  else if st.patchNum = 11 then
    changeAllParams 4 6 3 2 3 4 5 4 4 (-3) 3 (-2) 0 117 114 117 127 3 22 29 18 16 28 23 20 0 0 0 0 29 29 29 29 7 7 8 7 1 1 1 1 0 0 0 0 0 1 0 0 st
  else if st.patchNum = 12 then
    changeAllParams 5 2 5 0 1 2 2 10 6 0 0 0 0 127 104 118 127 27 16 0 0 25 19 19 21 5 0 12 0 31 31 31 31 9 8 8 8 2 2 1 1 0 1 0 0 0 0 1 0 st
  else if st.patchNum = 13 then
    changeAllParams 6 5 2 0 2 7 3 14 3 (-3) (-1) 3 1 113 120 125 118 0 0 25 0 22 23 22 23 11 11 11 11 31 31 31 31 10 8 8 8 1 1 1 1 0 0 0 0 0 0 1 0 st
  else if st.patchNum = 14 then
    changeAllParams 5 5 3 0 2 1 1 4 2 0 0 0 0 120 120 120 127 27 28 20 24 30 26 8 28 0 3 0 10 7 31 31 31 9 7 7 7 1 1 1 1 0 0 1 0 0 1 0 0 st
  else if st.patchNum = 15 then
    changeAllParams 7 0 0 0 0 2 2 2 2 0 0 0 0 0 0 0 127 0 0 0 0 31 31 31 31 15 15 15 15 31 31 31 31 0 0 0 0 0 0 0 0 0 0 0 0 0 0 0 0 st
  else if st.patchNum = 16 then
    changeAllParams 1 0 0 0 0 10 8 4 2 (-3) 1 3 0 27 112 112 127 18 10 20 0 16 0 29 25 0 0 0 0 29 29 29 29 7 7 7 10 1 2 1 2 0 0 0 0 0 0 0 0 st
  else if st.patchNum = 17 then
    changeAllParams 6 4 0 0 0 10 1 1 1 0 0 0 0 120 120 120 127 0 0 0 0 24 19 25 13 0 0 0 0 31 31 31 31 8 8 6 9 1 1 1 1 0 0 0 0 0 0 0 0 st
  else if st.patchNum = 18 then
    changeAllParams 2 4 1 0 1 2 6 8 4 (-3) 0 3 0 120 111 105 125 14 23 0 14 24 23 22 31 0 0 8 12 24 23 27 31 9 8 8 9 1 2 2 0 0 0 7 0 0 1 1 0 st
  else if st.patchNum = 19 then
    changeAllParams 5 5 1 0 2 4 2 10 2 2 (-1) 1 0 113 114 109 127 0 23 21 0 23 24 26 27 0 0 0 0 31 31 31 31 7 7 9 9 0 2 1 0 0 0 3 0 0 1 0 0 st
  else if st.patchNum = 20 then
    changeAllParams 4 4 0 0 0 4 3 7 2 0 (-1) 1 0 105 116 102 127 18 0 14 0 20 21 17 19 7 0 0 0 24 23 23 21 9 9 9 9 0 0 0 0 8 0 0 0 0 0 0 0 st
  else (st, [])

/-- The preset-loading path of `changeValue` (`val == &ym.patchNum`):
`minMaxValue(&ym.patchNum, 0, MAX_PRESET); preset();` with `MAX_PRESET`
equal to 20. -/
def loadPreset (idx : Int) (st : Ym) : Ym × List Write :=
  preset { st with patchNum := minMaxValue idx 0 20 }

/-- The bounded parameter fields editable through `changeValue`. -/
inductive PField where
  | patchNum | velSens | minVel | polyphony
  | algorithm | feedback | multiple | detune | totalLvl
  | attack | decay | susLvl | susRate | release | rateScl | ssgeg
  | lfoFreq | vibrato | tremolo | amOn
deriving DecidableEq, Repr

/-- The `min` argument `changeValue` passes to `minMaxValue` for each field. -/
def fieldMin : PField → Int
  | .patchNum => 0
  | .velSens => 0
  | .minVel => 0
  | .polyphony => 0
  | .algorithm => 0
  | .feedback => 0
  | .multiple => 0
  | .detune => -3
  | .totalLvl => 0
  | .attack => 0
  | .decay => 0
  | .susLvl => 0
  | .susRate => 0
  | .release => 0
  | .rateScl => 0
  | .ssgeg => 0
  | .lfoFreq => 0
  | .vibrato => 0
  | .tremolo => 0
  | .amOn => 0

/-- The `max` argument `changeValue` passes to `minMaxValue` for each field. -/
def fieldMax : PField → Int
  | .patchNum => 20
  | .velSens => 10
  | .minVel => 127
  | .polyphony => 2
  | .algorithm => 7
  | .feedback => 7
  | .multiple => 15
  | .detune => 3
  | .totalLvl => 127
  | .attack => 31
  | .decay => 31
  | .susLvl => 15
  | .susRate => 31
  | .release => 15
  | .rateScl => 3
  | .ssgeg => 8
  | .lfoFreq => 8
  | .vibrato => 7
  | .tremolo => 3
  | .amOn => 1

/-- The edit `++*ym.value; changeValue();` — the increment edit path of `PCINT2_vect`
restricted to its effect on the edited field's value. -/
def incValue (f : PField) (v : Int) : Int :=
  minMaxValue (v + 1) (fieldMin f) (fieldMax f)

/-- The edit `--*ym.value; changeValue();` — the decrement edit path of `PCINT2_vect`
restricted to its effect on the edited field's value. -/
def decValue (f : PField) (v : Int) : Int :=
  minMaxValue (v - 1) (fieldMin f) (fieldMax f)

/-- Modelled from the spec's words, for comparison with `octBlock`: octave
block `note/12 - 1` CLAMPED into [0,7] (below 0 becomes 0, above 7
becomes 7), as §4.3 of the spec describes it. -/
def octBlockClampedSpec (noteIn : Nat) : Int :=
  let oct : Int := ((noteIn / 12 : Nat) : Int) - 1
  if oct < 0 then 0 else if oct > 7 then 7 else oct

/-- The key-off register write for slot k (`sendreg(0, 0x28, 0x00+chan[k])`). -/
def keyOffW (k : Nat) : Write := sendreg 0 0x28 (0x00 + chanAt k)

/-- A slot fully on with note N: both `notesOn` flags set and a matching
stored note value. -/
def matchSlot (N : Nat) (s : Slot) : Prop :=
  s.reqOn = true ∧ s.sounding = true ∧ s.note = (N : Int)

instance (N : Nat) (s : Slot) : Decidable (matchSlot N s) := by
  unfold matchSlot; infer_instance

/-- A slot holding note n fully on (both flags set), with the frequency
bytes `note()` computes for n and velocity 80: used as a concrete slot in
scenario states. -/
def sOn (n : Nat) : Slot := ⟨n, true, true, 80, freqHiOf n, freqLoOf n⟩

/-- Scenario: slot 0 idle, slot 1 fully on with note 60, the rest idle. -/
def stIdleThenOn : Ym :=
  { ym0 with slots := [idleSlot, sOn 60, idleSlot, idleSlot, idleSlot, idleSlot] }

/-- Scenario: slot 0 fully on with note 60, the rest idle. -/
def stOnFirst : Ym :=
  { ym0 with slots := [sOn 60, idleSlot, idleSlot, idleSlot, idleSlot, idleSlot] }

/-- Scenario: slot 0 fully on with note 62, slot 1 fully on with note 60,
the rest idle. -/
def stTwoOn : Ym :=
  { ym0 with slots := [sOn 62, sOn 60, idleSlot, idleSlot, idleSlot, idleSlot] }

/-- Scenario: slot 0 fully on with note 62, the rest idle. -/
def stOn62 : Ym :=
  { ym0 with slots := [sOn 62, idleSlot, idleSlot, idleSlot, idleSlot, idleSlot] }

/-- Scenario: slot 0 fully on with note 60, the rest idle, sustain pedal
active. -/
def stSus : Ym := { stOnFirst with sustain := true }

/-- Scenario: slot 0 scheduled on (requested-on, not yet sounding) with
note 60, velocity 80, the rest idle; total levels of the "one operator"
patch. -/
def stPendingOn : Ym :=
  { ym0 with
    slots := [⟨60, true, false, 80, freqHiOf 60, freqLoOf 60⟩,
              idleSlot, idleSlot, idleSlot, idleSlot, idleSlot],
    totalLvl := [0, 0, 0, 127] }

end Megamega

namespace Megamega

/-! ### Infrastructure lemmas -/

lemma minMaxValue_mem {mn mx : Int} (v : Int) (h : mn ≤ mx) :
    mn ≤ minMaxValue v mn mx ∧ minMaxValue v mn mx ≤ mx := by
  unfold minMaxValue; split_ifs <;> omega

lemma chanAt_bounds (i : Nat) : 0 ≤ chanAt i ∧ chanAt i ≤ 6 := by
  match i with
  | 0 | 1 | 2 | 3 | 4 | 5 => decide
  | n + 6 => simp [chanAt, chanTbl]

lemma opOffsetAt_bounds (o : Nat) : 0 ≤ opOffsetAt o ∧ opOffsetAt o ≤ 12 := by
  match o with
  | 0 | 1 | 2 | 3 => decide
  | n + 4 => simp [opOffsetAt, opOffsetTbl]

lemma chanAt_inj {i j : Nat} (hi : i < 6) (hj : j < 6) (hne : i ≠ j) :
    chanAt i ≠ chanAt j := by
  interval_cases i <;> interval_cases j <;> simp_all <;> decide

lemma chanGrp_bounds (i : Nat) : 0 ≤ chanGrp i ∧ chanGrp i ≤ 1 := by
  unfold chanGrp; split_ifs <;> omega

lemma tickLoop_append (g : Ym) (l1 l2 : List Slot) (i : Nat) :
    tickLoop g i (l1 ++ l2) =
      ((tickLoop g i l1).1 ++ (tickLoop g (i + l1.length) l2).1,
       (tickLoop g i l1).2 ++ (tickLoop g (i + l1.length) l2).2) := by
  induction l1 generalizing i with
  | nil => simp [tickLoop]
  | cons s rest ih =>
    have harith : i + (rest.length + 1) = i + 1 + rest.length := by omega
    simp [tickLoop, ih (i + 1), harith]

lemma tickLoop_length (g : Ym) (l : List Slot) (i : Nat) :
    (tickLoop g i l).1.length = l.length := by
  induction l generalizing i with
  | nil => simp [tickLoop]
  | cons s rest ih => simp [tickLoop, ih (i + 1)]

lemma tickSlot_stable_writes (g g' : Ym) (i j : Nat) (s : Slot)
    (h : g'.sustain = g.sustain) : (tickSlot g' j (tickSlot g i s).1).2 = [] := by
  rcases s with ⟨n, rq, sd, v, fh, fl⟩
  cases rq <;> cases sd <;> simp [tickSlot]
  by_cases hs : g.sustain <;> simp [hs, h ▸ hs, tickSlot]

lemma tickLoop_stable_writes (g g' : Ym) (h : g'.sustain = g.sustain)
    (l : List Slot) : ∀ i j : Nat, (tickLoop g' j (tickLoop g i l).1).2 = [] := by
  induction l with
  | nil => intro i j; simp [tickLoop]
  | cons s rest ih =>
    intro i j
    simp [tickLoop, tickSlot_stable_writes g g' i j s h, ih (i + 1) (j + 1)]

/-! ### Claim theorems -/

/-- Claim C7: for every bounded parameter field, the encoder edit path
(`++`/`--` on the active value followed by `changeValue`'s `minMaxValue`
call) wraps: incrementing at max yields min, decrementing at min yields
max, and any edited value lands inside the documented bounds. -/
theorem changeValue_wraps_within_bounds :
    ∀ f : PField,
      incValue f (fieldMax f) = fieldMin f ∧
      decValue f (fieldMin f) = fieldMax f ∧
      ∀ v : Int,
        fieldMin f ≤ incValue f v ∧ incValue f v ≤ fieldMax f ∧
        fieldMin f ≤ decValue f v ∧ decValue f v ≤ fieldMax f := by
  intro f
  have hmm : fieldMin f ≤ fieldMax f := by cases f <;> decide
  refine ⟨?_, ?_, fun v => ?_⟩ <;>
    simp only [incValue, decValue, minMaxValue] <;> split_ifs <;> omega

/-- Claim C10: a controller-64 (sustain pedal) message with data value 0
sets the sustain flag and any nonzero data value clears it (reversed
polarity); the message emits no register writes and leaves the slot array
untouched. -/
theorem sustainPedal_reversed_polarity :
    ∀ (st : Ym) (d : Int),
      (usartControl st 64 d).2 = [] ∧
      (usartControl st 64 d).1.slots = st.slots ∧
      ((usartControl st 64 d).1.sustain = true ↔ d = 0) := by
  intro st d
  by_cases h : d = 0 <;> simp [usartControl, h]

/-- Claim C9: a mod-wheel (controller 1) message with nonzero data d emits
a single direct LFO register write derived from d/18; with data 0 it
re-emits the register value derived from the stored LFO-frequency field;
either way the parameter store (in particular `lfoFreq`) is unchanged. -/
theorem modWheel_direct_lfo_write :
    ∀ (st : Ym) (d : Int),
      (d ≠ 0 → usartControl st 1 d = (st, [sendreg 0 0x22 (0x08 + d.tdiv 18)])) ∧
      (d = 0 → usartControl st 1 d =
        (st, [if st.lfoFreq = 0 then sendreg 0 0x22 0
              else sendreg 0 0x22 (0x08 + st.lfoFreq - 1)])) ∧
      (usartControl st 1 d).1 = st := by
  intro st d
  by_cases h : d = 0
  · by_cases h2 : st.lfoFreq = 0 <;> simp [usartControl, h, h2]
  · simp [usartControl, h]

theorem modWheel_direct_lfo_write_witness :
    usartControl ym0 1 127 = (ym0, [sendreg 0 0x22 (0x08 + (127 : Int).tdiv 18)]) ∧
    usartControl ym0 1 0 =
      (ym0, [if ym0.lfoFreq = 0 then sendreg 0 0x22 0
             else sendreg 0 0x22 (0x08 + ym0.lfoFreq - 1)]) :=
  ⟨(modWheel_direct_lfo_write ym0 127).1 (by decide),
   (modWheel_direct_lfo_write ym0 0).2.1 rfl⟩

/-- Claim C2 (counterexample): the claim says notes below octave 0 use
block 0, but `note()` passes the octave through the wrap-around
`minMaxValue`, so note 0 (octave value -1) gets block 7, not the clamped
block 0. -/
theorem octBlock_differs_from_clamped :
    octBlock 0 = 7 ∧ octBlockClampedSpec 0 = 0 ∧
    octBlock 0 ≠ octBlockClampedSpec 0 := by decide

/-- Claim C2 (amended): `note()` computes the octave block as note/12 - 1
and then WRAPS it into [0,7] via `minMaxValue`: notes below octave 0
(note < 12) get block 7 and notes above octave 7 (note ≥ 108) get block 0;
the pitch code is looked up in the fixed 12-entry frequency table indexed
by note mod 12. -/
theorem octBlock_wraps_and_tableLookup :
    ∀ n : Nat,
      octBlock n =
        (if n < 12 then 7
         else if n < 108 then ((n / 12 : Nat) : Int) - 1 else 0) ∧
      noteCode n = notes.getD (n % 12) 0 := by
  intro n
  refine ⟨?_, rfl⟩
  unfold octBlock minMaxValue
  split_ifs <;> omega

/-- Claim C5: the tick handler is idempotent on any slot-array state: a
second consecutive tick with no intervening events emits no register
writes (every slot is stable after one tick, including slots held
sounding by the sustain flag). -/
theorem tick_idempotent_no_writes :
    ∀ st : Ym, (TIMER1_OVF_vect (TIMER1_OVF_vect st).1).2 = [] := by
  intro st
  exact tickLoop_stable_writes st
    { st with slots := (tickLoop st 0 st.slots).1 } rfl st.slots 0 0

lemma noteOnLoop_skip (mv : Int) (N v : Nat) (fh fl : Int) (pre : List Slot)
    (h1 : ∀ s ∈ pre, ¬(s.reqOn = false ∧ s.sounding = false))
    (h2 : ∀ s ∈ pre, ¬(s.reqOn = true ∧ s.sounding = true ∧ s.note = (N : Int))) :
    ∀ (i : Nat) (rest : List Slot),
      noteOnLoop mv N v fh fl i (pre ++ rest) =
        (pre ++ (noteOnLoop mv N v fh fl (i + pre.length) rest).1,
         (noteOnLoop mv N v fh fl (i + pre.length) rest).2) := by
  induction pre with
  | nil => intro i rest; simp
  | cons s p ih =>
    intro i rest
    have hs1 := h1 s (List.mem_cons_self s p)
    have hs2 := h2 s (List.mem_cons_self s p)
    have harith : i + (p.length + 1) = i + 1 + p.length := by omega
    simp [List.cons_append, noteOnLoop, hs1, hs2, List.length_cons, harith,
      ih (fun x hx => h1 x (List.mem_cons_of_mem s hx))
         (fun x hx => h2 x (List.mem_cons_of_mem s hx)) (i + 1) rest]

/-- Claim C1 (counterexample): with slot 0 idle and slot 1 fully sounding
note 60, `note()` allocates the idle slot 0 (its free-slot check precedes
the retrigger check in the same scan) and emits no retrigger burst — the
claim promised no allocation and an immediate off/on burst. -/
theorem noteOn_allocates_despite_sounding_match :
    (note stIdleThenOn 60 100 true).2 = [] ∧
    ((note stIdleThenOn 60 100 true).1.slots.getD 0 idleSlot).reqOn = true ∧
    (stIdleThenOn.slots.getD 0 idleSlot).reqOn = false := by decide

/-- Claim C1 (amended): if slot k is fully sounding with note N and no slot
before it in the scan order is idle or also fully matches N, then
`noteOn(N, v2)` allocates nothing: the slot array is left exactly as it
was (slot k keeps requested-on and sounding true) and the immediate
key-off / pitch-high / pitch-low / key-on burst is emitted for slot k. -/
theorem noteOn_retriggers_in_place :
    ∀ (st : Ym) (N v : Nat) (pre post : List Slot) (sk : Slot),
      st.slots = pre ++ sk :: post →
      (∀ s ∈ pre, ¬(s.reqOn = false ∧ s.sounding = false)) →
      (∀ s ∈ pre, ¬matchSlot N s) →
      matchSlot N sk →
      note st N v true = (st, retrigWrites pre.length sk) := by
  intro st N v pre post sk hslots h1 h2 hsk
  obtain ⟨hr, hsd, hn⟩ := hsk
  simp only [note, hslots, if_pos,
    noteOnLoop_skip st.minVel N v (freqHiOf N) (freqLoOf N) pre h1
      (fun s hs => h2 s hs) 0 (sk :: post)]
  simp only [noteOnLoop, hr, hsd, hn, Nat.zero_add]
  simp [← hslots]

theorem noteOn_retriggers_in_place_witness :
    note stTwoOn 60 100 true = (stTwoOn, retrigWrites 1 (sOn 60)) :=
  noteOn_retriggers_in_place stTwoOn 60 100 [sOn 62]
    [idleSlot, idleSlot, idleSlot, idleSlot] (sOn 60) rfl
    (by decide) (by decide) (by decide)

/-- Claim C3 (counterexample): with slot 0 fully sounding note 60 and slot
1 idle, `noteOn(60, v)` retriggers slot 0 in place and allocates no idle
slot at all — the claim promised the lowest-indexed idle slot (slot 1)
would become requested-on. -/
theorem noteOn_no_allocation_on_match :
    (note stOnFirst 60 100 true).1 = stOnFirst ∧
    ((note stOnFirst 60 100 true).1.slots.getD 1 idleSlot).reqOn = false ∧
    (stOnFirst.slots.getD 1 idleSlot).reqOn = false ∧
    (stOnFirst.slots.getD 1 idleSlot).sounding = false := by decide

/-- Claim C3 (amended): if some slot is idle and no slot before the first
idle one fully matches note N, then `noteOn(N, v)` turns exactly that
lowest-indexed idle slot requested-on, recording note N, the computed
frequency bytes and a held velocity of max(v, minVel); its sounding flag
and every other slot are untouched, and no register write is emitted. -/
theorem noteOn_allocates_lowest_idle :
    ∀ (st : Ym) (N v : Nat) (pre post : List Slot) (s0 : Slot),
      st.slots = pre ++ s0 :: post →
      s0.reqOn = false → s0.sounding = false →
      (∀ s ∈ pre, ¬(s.reqOn = false ∧ s.sounding = false)) →
      (∀ s ∈ pre, ¬matchSlot N s) →
      note st N v true =
        ({ st with slots := pre ++
            { s0 with vel := max v st.minVel, freqHi := freqHiOf N,
                      freqLo := freqLoOf N, note := (N : Int),
                      reqOn := true } :: post }, []) := by
  intro st N v pre post s0 hslots hr hsd h1 h2
  simp only [note, hslots, if_pos,
    noteOnLoop_skip st.minVel N v (freqHiOf N) (freqLoOf N) pre h1
      (fun s hs => h2 s hs) 0 (s0 :: post)]
  simp [noteOnLoop, hr, hsd]

theorem noteOn_allocates_lowest_idle_witness :
    note stOn62 60 100 true =
      ({ stOn62 with slots := [sOn 62] ++
          { idleSlot with vel := max 100 stOn62.minVel, freqHi := freqHiOf 60,
                          freqLo := freqLoOf 60, note := ((60 : Nat) : Int),
                          reqOn := true } ::
          [idleSlot, idleSlot, idleSlot, idleSlot] }, []) :=
  noteOn_allocates_lowest_idle stOn62 60 100 [sOn 62]
    [idleSlot, idleSlot, idleSlot, idleSlot] idleSlot rfl rfl rfl
    (by decide) (by decide)

lemma opLvl_range (g : Ym) (s : Slot) (o : Nat)
    (h1 : 0 ≤ g.velSens) (h2 : g.velSens ≤ 10)
    (h3 : 0 ≤ s.vel) (h4 : s.vel ≤ 127)
    (h5 : 0 ≤ g.totalLvl.getD o 0) (h6 : g.totalLvl.getD o 0 ≤ 127) :
    0 ≤ opLvl g s o ∧ opLvl g s o ≤ 127 := by
  unfold opLvl
  have hnum0 : 0 ≤ g.velSens * s.vel + (10 - g.velSens) * g.totalLvl.getD o 0 :=
    add_nonneg (mul_nonneg h1 h3) (mul_nonneg (by omega) h5)
  have hnum1 : g.velSens * s.vel + (10 - g.velSens) * g.totalLvl.getD o 0 ≤ 1270 := by
    nlinarith
  rw [Int.tdiv_eq_ediv hnum0 (by norm_num)]
  omega

/-- Claim C4: on a tick, a slot k that is requested-on but not yet sounding
gets, in this order: one level write per operator carrying
`127 - (velSens*vel + (10 - velSens)*totalLvl[o]) / 10` (truncating
division, reversed polarity) to that operator's level register, the
pitch-high write, the pitch-low write, the key-on write — and its sounding
flag is set; slots before and after k contribute their own tick output
around this burst. -/
theorem tick_keyOn_burst :
    ∀ (st : Ym) (pre post : List Slot) (n : Int) (vel fh fl : Int),
      st.slots = pre ++ (⟨n, true, false, vel, fh, fl⟩ : Slot) :: post →
      0 ≤ st.velSens → st.velSens ≤ 10 →
      0 ≤ vel → vel ≤ 127 →
      (∀ o, o < 4 → 0 ≤ st.totalLvl.getD o 0 ∧ st.totalLvl.getD o 0 ≤ 127) →
      0 ≤ fh → fh ≤ 255 → 0 ≤ fl → fl ≤ 255 →
      (TIMER1_OVF_vect st).2 =
        (tickLoop st 0 pre).2 ++
        ([⟨chanGrp pre.length, 0x40 + ((pre.length % 3 : Nat) : Int) + opOffsetAt 0,
            127 - (st.velSens * vel + (10 - st.velSens) * st.totalLvl.getD 0 0).tdiv 10⟩,
          ⟨chanGrp pre.length, 0x40 + ((pre.length % 3 : Nat) : Int) + opOffsetAt 1,
            127 - (st.velSens * vel + (10 - st.velSens) * st.totalLvl.getD 1 0).tdiv 10⟩,
          ⟨chanGrp pre.length, 0x40 + ((pre.length % 3 : Nat) : Int) + opOffsetAt 2,
            127 - (st.velSens * vel + (10 - st.velSens) * st.totalLvl.getD 2 0).tdiv 10⟩,
          ⟨chanGrp pre.length, 0x40 + ((pre.length % 3 : Nat) : Int) + opOffsetAt 3,
            127 - (st.velSens * vel + (10 - st.velSens) * st.totalLvl.getD 3 0).tdiv 10⟩,
          ⟨chanGrp pre.length, 0xA4 + ((pre.length % 3 : Nat) : Int), fh⟩,
          ⟨chanGrp pre.length, 0xA0 + ((pre.length % 3 : Nat) : Int), fl⟩,
          ⟨0, 0x28, 0xF0 + chanAt pre.length⟩] ++
         (tickLoop st (pre.length + 1) post).2) ∧
      (TIMER1_OVF_vect st).1.slots =
        (tickLoop st 0 pre).1 ++
          (⟨n, true, true, vel, fh, fl⟩ : Slot) :: (tickLoop st (pre.length + 1) post).1 := by
  intro st pre post n vel fh fl hslots hv1 hv2 hv3 hv4 htl hf1 hf2 hf3 hf4
  have hogen : ∀ o, o < 4 →
      (127 - opLvl st ⟨n, true, false, vel, fh, fl⟩ o) % 256 =
        127 - opLvl st ⟨n, true, false, vel, fh, fl⟩ o := by
    intro o ho
    have := opLvl_range st ⟨n, true, false, vel, fh, fl⟩ o hv1 hv2 hv3 hv4
      (htl o ho).1 (htl o ho).2
    omega
  have h0 := hogen 0 (by omega)
  have h1 := hogen 1 (by omega)
  have h2 := hogen 2 (by omega)
  have h3 := hogen 3 (by omega)
  have hcg := chanGrp_bounds pre.length
  have hca := chanAt_bounds pre.length
  have hk3 : (pre.length % 3 : Nat) < 3 := Nat.mod_lt _ (by omega)
  have hburst : onBurst st pre.length ⟨n, true, false, vel, fh, fl⟩ =
      [⟨chanGrp pre.length, 0x40 + ((pre.length % 3 : Nat) : Int) + opOffsetAt 0,
          127 - (st.velSens * vel + (10 - st.velSens) * st.totalLvl.getD 0 0).tdiv 10⟩,
       ⟨chanGrp pre.length, 0x40 + ((pre.length % 3 : Nat) : Int) + opOffsetAt 1,
          127 - (st.velSens * vel + (10 - st.velSens) * st.totalLvl.getD 1 0).tdiv 10⟩,
       ⟨chanGrp pre.length, 0x40 + ((pre.length % 3 : Nat) : Int) + opOffsetAt 2,
          127 - (st.velSens * vel + (10 - st.velSens) * st.totalLvl.getD 2 0).tdiv 10⟩,
       ⟨chanGrp pre.length, 0x40 + ((pre.length % 3 : Nat) : Int) + opOffsetAt 3,
          127 - (st.velSens * vel + (10 - st.velSens) * st.totalLvl.getD 3 0).tdiv 10⟩,
       ⟨chanGrp pre.length, 0xA4 + ((pre.length % 3 : Nat) : Int), fh⟩,
       ⟨chanGrp pre.length, 0xA0 + ((pre.length % 3 : Nat) : Int), fl⟩,
       ⟨0, 0x28, 0xF0 + chanAt pre.length⟩] := by
    unfold onBurst
    simp only [opLvl] at h0 h1 h2 h3
    simp only [show List.range 4 = [0, 1, 2, 3] from rfl, List.map_cons, List.map_nil,
      sendreg, List.cons_append, List.nil_append, opLvl,
      show opOffsetAt 0 = 0 from rfl, show opOffsetAt 1 = 8 from rfl,
      show opOffsetAt 2 = 4 from rfl, show opOffsetAt 3 = 12 from rfl,
      List.cons.injEq, Write.mk.injEq, and_true]
    omega
  constructor
  · simp only [TIMER1_OVF_vect, hslots, tickLoop_append, Nat.zero_add]
    simp only [tickLoop, tickSlot]
    rw [hburst]
  · simp only [TIMER1_OVF_vect, hslots, tickLoop_append, Nat.zero_add]
    simp only [tickLoop, tickSlot]

theorem tick_keyOn_burst_witness :
    (TIMER1_OVF_vect stPendingOn).2 =
      [⟨0, 64, 111⟩, ⟨0, 72, 111⟩, ⟨0, 68, 111⟩, ⟨0, 76, 10⟩,
       ⟨0, 164, 33⟩, ⟨0, 160, 55⟩, ⟨0, 40, 240⟩] ∧
    (TIMER1_OVF_vect stPendingOn).1.slots =
      ⟨60, true, true, 80, 33, 55⟩ :: List.replicate 5 idleSlot := by
  have h := tick_keyOn_burst stPendingOn []
    [idleSlot, idleSlot, idleSlot, idleSlot, idleSlot] 60 80
    (freqHiOf 60) (freqLoOf 60) (by decide) (by decide) (by decide)
    (by decide) (by decide) (by decide) (by decide) (by decide)
    (by decide) (by decide)
  exact ⟨h.1.trans (by decide), h.2.trans (by decide)⟩

lemma noteOffLoop_clears_first (N : Nat) (pre post : List Slot) (sk : Slot)
    (hpre : ∀ s ∈ pre, ¬matchSlot N s) (hsk : matchSlot N sk) :
    noteOffLoop N (pre ++ sk :: post) = pre ++ { sk with reqOn := false } :: post := by
  induction pre with
  | nil =>
    obtain ⟨hr, hsd, hn⟩ := hsk
    simp [noteOffLoop, hr, hsd, hn]
  | cons a p ih =>
    have ha : ¬(a.reqOn = true ∧ a.sounding = true ∧ a.note = (N : Int)) :=
      hpre a (List.mem_cons_self a p)
    simp [noteOffLoop, ha, ih (fun x hx => hpre x (List.mem_cons_of_mem a hx))]

lemma keyOffW_notin_onBurst (g : Ym) (i k : Nat) (s : Slot) :
    keyOffW k ∉ onBurst g i s := by
  intro hmem
  have hca := chanAt_bounds k
  have hci := chanAt_bounds i
  have hcg := chanGrp_bounds i
  simp only [onBurst, keyOffW, sendreg, List.mem_append, List.mem_map,
    List.mem_range, List.mem_cons, List.not_mem_nil, or_false] at hmem
  rcases hmem with ⟨o, ho, heq⟩ | heq | heq | heq
  · have hoo := opOffsetAt_bounds o
    simp only [Write.mk.injEq] at heq
    omega
  · simp only [Write.mk.injEq] at heq
    omega
  · simp only [Write.mk.injEq] at heq
    omega
  · simp only [Write.mk.injEq] at heq
    omega

lemma keyOffW_notin_tickSlot_sustain (g : Ym) (hsus : g.sustain = true)
    (i k : Nat) (s : Slot) : keyOffW k ∉ (tickSlot g i s).2 := by
  rcases s with ⟨n, rq, sd, v, f1, f2⟩
  cases rq <;> cases sd <;> simp [tickSlot, hsus]
  exact keyOffW_notin_onBurst g i k _

lemma keyOffW_notin_tickLoop_sustain (g : Ym) (hsus : g.sustain = true)
    (k : Nat) : ∀ (l : List Slot) (i : Nat), keyOffW k ∉ (tickLoop g i l).2 := by
  intro l
  induction l with
  | nil => intro i; simp [tickLoop]
  | cons s rest ih =>
    intro i
    simp only [tickLoop, List.mem_append]
    rintro (h | h)
    · exact keyOffW_notin_tickSlot_sustain g hsus i k s h
    · exact ih (i + 1) h

lemma keyOffW_notin_tickSlot_ne (g : Ym) {i k : Nat} (hi : i < 6) (hk : k < 6)
    (hne : i ≠ k) (s : Slot) : keyOffW k ∉ (tickSlot g i s).2 := by
  rcases s with ⟨n, rq, sd, v, f1, f2⟩
  have hca := chanAt_bounds k
  have hci := chanAt_bounds i
  have hinj : chanAt i ≠ chanAt k := chanAt_inj hi hk hne
  cases rq <;> cases sd <;> simp [tickSlot]
  · split_ifs with hs
    · simp
    · simp only [List.mem_singleton, keyOffW, sendreg, Write.mk.injEq]
      intro h
      omega
  · exact keyOffW_notin_onBurst g i k _

lemma keyOffW_notin_tickLoop_out (g : Ym) {k : Nat} (hk : k < 6) :
    ∀ (l : List Slot) (i : Nat), i + l.length ≤ 6 →
      (∀ p, p < l.length → i + p ≠ k) → keyOffW k ∉ (tickLoop g i l).2 := by
  intro l
  induction l with
  | nil => intro i _ _; simp [tickLoop]
  | cons s rest ih =>
    intro i hlen hout
    simp only [tickLoop, List.mem_append]
    rintro (h | h)
    · have hi : i < 6 := by simp at hlen; omega
      have hne : i ≠ k := by have := hout 0 (by simp); omega
      exact keyOffW_notin_tickSlot_ne g hi hk hne _ h
    · refine ih (i + 1) (by simp at hlen ⊢; omega)
        (fun p hp => ?_) h
      have := hout (p + 1) (by simp; omega)
      omega

lemma getD_append_len (P : List Slot) (x : Slot) (Q : List Slot) (d : Slot) :
    (P ++ x :: Q).getD P.length d = x := by
  induction P with
  | nil => rfl
  | cons a P ih => simpa using ih

/-- Claim C6: with the sustain flag set, a `noteOff(N)` reaching a fully
sounding slot clears only that slot's requested-on flag and emits nothing;
no subsequent tick clears the slot's sounding flag or emits its key-off
write while sustain stays set; as soon as sustain is cleared, the very
next tick emits exactly one key-off write for that slot and clears its
note number and sounding flag. -/
theorem sustain_defers_keyOff :
    ∀ (st : Ym) (N v : Nat) (pre post : List Slot) (sk : Slot),
      st.slots = pre ++ sk :: post →
      pre.length + post.length = 5 →
      (∀ s ∈ pre, ¬matchSlot N s) →
      matchSlot N sk →
      st.sustain = true →
      note st N v false =
        ({ st with slots := pre ++ { sk with reqOn := false } :: post }, []) ∧
      (∀ m : Nat,
        (tickIter m (note st N v false).1).slots.getD pre.length idleSlot =
          { sk with reqOn := false } ∧
        keyOffW pre.length ∉
          (TIMER1_OVF_vect (tickIter m (note st N v false).1)).2) ∧
      (∀ m : Nat,
        (TIMER1_OVF_vect { tickIter m (note st N v false).1 with
            sustain := false }).2.count (keyOffW pre.length) = 1 ∧
        (TIMER1_OVF_vect { tickIter m (note st N v false).1 with
            sustain := false }).1.slots.getD pre.length idleSlot =
          { sk with note := 0, reqOn := false, sounding := false }) := by
  intro st N v pre post sk hslots hlen hpre hsk hsus
  obtain ⟨hr, hsd, hn⟩ := hsk
  rcases sk with ⟨n0, rq0, sd0, v0, fh0, fl0⟩
  simp only at hr hsd hn
  subst hr hsd hn
  have hoff : note st N v false =
      ({ st with slots :=
          pre ++ (⟨(N : Int), false, true, v0, fh0, fl0⟩ : Slot) :: post }, []) := by
    simp only [note, Bool.false_eq_true, if_neg, hslots, not_false_eq_true,
      noteOffLoop_clears_first N pre post
        ⟨(N : Int), true, true, v0, fh0, fl0⟩ hpre ⟨rfl, rfl, rfl⟩]
  have hINV : ∀ m, ∃ P Q : List Slot,
      (tickIter m (note st N v false).1).slots =
        P ++ (⟨(N : Int), false, true, v0, fh0, fl0⟩ : Slot) :: Q ∧
      P.length = pre.length ∧ Q.length = post.length ∧
      (tickIter m (note st N v false).1).sustain = true := by
    intro m
    induction m with
    | zero =>
      refine ⟨pre, post, ?_, rfl, rfl, ?_⟩
      · rw [hoff]
        rfl
      · rw [hoff]
        exact hsus
      
    | succ m ih =>
      obtain ⟨P, Q, hPQ, hP, hQ, hsus'⟩ := ih
      refine ⟨(tickLoop (tickIter m (note st N v false).1) 0 P).1,
        (tickLoop (tickIter m (note st N v false).1) (P.length + 1) Q).1, ?_, ?_, ?_, ?_⟩
      · show (TIMER1_OVF_vect (tickIter m (note st N v false).1)).1.slots = _
        simp only [TIMER1_OVF_vect, hPQ, tickLoop_append, Nat.zero_add]
        simp [tickLoop, tickSlot, hsus']
      · rw [tickLoop_length]; exact hP
      · rw [tickLoop_length]; exact hQ
      · show (TIMER1_OVF_vect (tickIter m (note st N v false).1)).1.sustain = true
        simpa [TIMER1_OVF_vect] using hsus'
  refine ⟨hoff, fun m => ?_, fun m => ?_⟩
  · obtain ⟨P, Q, hPQ, hP, hQ, hsus'⟩ := hINV m
    constructor
    · rw [hPQ, ← hP, getD_append_len]
    · intro hmem
      simp only [TIMER1_OVF_vect] at hmem
      exact keyOffW_notin_tickLoop_sustain _ hsus' _ _ _ hmem
  · obtain ⟨P, Q, hPQ, hP, hQ, hsus'⟩ := hINV m
    have hk6 : pre.length < 6 := by omega
    have hsplitW : (TIMER1_OVF_vect { tickIter m (note st N v false).1 with
        sustain := false }).2 =
        (tickLoop { tickIter m (note st N v false).1 with sustain := false } 0 P).2
        ++ ([sendreg 0 0x28 (0x00 + chanAt P.length)]
        ++ (tickLoop { tickIter m (note st N v false).1 with sustain := false }
              (P.length + 1) Q).2) := by
      simp only [TIMER1_OVF_vect, hPQ, tickLoop_append, Nat.zero_add]
      simp [tickLoop, tickSlot]
    have hsplitS : (TIMER1_OVF_vect { tickIter m (note st N v false).1 with
        sustain := false }).1.slots =
        (tickLoop { tickIter m (note st N v false).1 with sustain := false } 0 P).1
        ++ (⟨0, false, false, v0, fh0, fl0⟩ : Slot)
        :: (tickLoop { tickIter m (note st N v false).1 with sustain := false }
              (P.length + 1) Q).1 := by
      simp only [TIMER1_OVF_vect, hPQ, tickLoop_append, Nat.zero_add]
      simp [tickLoop, tickSlot]
    constructor
    · rw [hsplitW]
      have hnotinP : keyOffW pre.length ∉
          (tickLoop { tickIter m (note st N v false).1 with sustain := false } 0 P).2 := by
        refine keyOffW_notin_tickLoop_out _ hk6 P 0 (by omega) ?_
        intro p hp
        rw [hP] at hp
        omega
      have hnotinQ : keyOffW pre.length ∉
          (tickLoop { tickIter m (note st N v false).1 with sustain := false }
            (P.length + 1) Q).2 := by
        refine keyOffW_notin_tickLoop_out _ hk6 Q (P.length + 1) (by omega) ?_
        intro p hp
        rw [hP]
        omega
      rw [List.count_append, List.count_append,
        List.count_eq_zero.mpr hnotinP, List.count_eq_zero.mpr hnotinQ]
      simp [keyOffW, hP]
    · rw [hsplitS]
      have hlenP : (tickLoop { tickIter m (note st N v false).1 with
          sustain := false } 0 P).1.length = pre.length := by
        rw [tickLoop_length]; exact hP
      rw [← hlenP, getD_append_len]

theorem sustain_defers_keyOff_witness :
    note stSus 60 0 false =
      ({ stSus with slots := [] ++ { sOn 60 with reqOn := false } ::
          [idleSlot, idleSlot, idleSlot, idleSlot, idleSlot] }, []) ∧
    ((tickIter 1 (note stSus 60 0 false).1).slots.getD 0 idleSlot =
        { sOn 60 with reqOn := false } ∧
      keyOffW 0 ∉ (TIMER1_OVF_vect (tickIter 1 (note stSus 60 0 false).1)).2) ∧
    ((TIMER1_OVF_vect { tickIter 0 (note stSus 60 0 false).1 with
        sustain := false }).2.count (keyOffW 0) = 1 ∧
      (TIMER1_OVF_vect { tickIter 0 (note stSus 60 0 false).1 with
        sustain := false }).1.slots.getD 0 idleSlot =
        { sOn 60 with note := 0, reqOn := false, sounding := false }) := by
  have h := sustain_defers_keyOff stSus 60 0 []
    [idleSlot, idleSlot, idleSlot, idleSlot, idleSlot] (sOn 60)
    rfl (by decide) (by simp) (by decide) rfl
  exact ⟨h.1, h.2.1 1, h.2.2 0⟩

/-- Claim C8: a preset index outside [0,20] is wrapped by the same
`minMaxValue` policy as every other bounded field (below 0 becomes 20,
above 20 becomes 0) and the load then performs the full parameter
overwrite and register-encoder burst of the wrapped index — 181 register
writes, identical to loading that in-range preset directly. -/
theorem loadPreset_wraps_index :
    ∀ (st : Ym) (idx : Int), idx < 0 ∨ 20 < idx →
      loadPreset idx st =
        (if idx < 0 then preset { st with patchNum := 20 }
         else preset { st with patchNum := 0 }) ∧
      (loadPreset idx st).2.length = 181 := by
  intro st idx h
  have hwrap : minMaxValue idx 0 20 = if idx < 0 then 20 else 0 := by
    unfold minMaxValue; split_ifs <;> omega
  have hmain : loadPreset idx st =
      (if idx < 0 then preset { st with patchNum := 20 }
       else preset { st with patchNum := 0 }) := by
    unfold loadPreset
    rw [hwrap]
    split_ifs <;> rfl
  refine ⟨hmain, ?_⟩
  rw [hmain]
  split_ifs
  · norm_num [preset]
    rfl
  · norm_num [preset]
    rfl

theorem loadPreset_wraps_index_witness :
    (loadPreset 21 ym0 =
      (if (21 : Int) < 0 then preset { ym0 with patchNum := 20 }
       else preset { ym0 with patchNum := 0 }) ∧
     (loadPreset 21 ym0).2.length = 181) ∧
    (loadPreset (-1) ym0 =
      (if (-1 : Int) < 0 then preset { ym0 with patchNum := 20 }
       else preset { ym0 with patchNum := 0 }) ∧
     (loadPreset (-1) ym0).2.length = 181) :=
  ⟨loadPreset_wraps_index ym0 21 (Or.inr (by norm_num)),
   loadPreset_wraps_index ym0 (-1) (Or.inl (by norm_num))⟩

end Megamega
